import Mathlib

/-!
Shallow embedding of `cargo-remote` (src/src/main.rs) together with a
spec-modelled embedding of its `patches` module, and proofs of the
specification claims about it.

The program is modelled as a pure function from the command-line options and
an environment (the results the external world returns for each side-effecting
step: `cargo metadata`, config-file reads, the rsync transfers, the ssh remote
build) to a trace of external events plus a final process outcome.
-/

namespace CargoRemote

/-! ## TOML values, as far as main.rs inspects them

`main.rs` only ever indexes a parsed config with `c["remote"]` and calls
`.as_str()` on the result.  `toml::Value`'s `Index` impl panics when the key
is absent, which we model explicitly. -/

inductive TomlVal where
  | str (s : String)
  | other
deriving DecidableEq, Repr

/-- A parsed top-level TOML table: an association list from keys to values. -/
abbrev TomlTable := List (String × TomlVal)

/-- Key lookup `t["k"]` before the panic: `toml::Value::get`. -/
def tomlGet (t : TomlTable) (k : String) : Option TomlVal :=
  (t.find? (fun kv => kv.1 == k)).map (fun kv => kv.2)

/-- The possible results of reading and parsing one config file, as seen by
`config_from_file` in main.rs: the read fails, the parse fails, or a table. -/
inductive ConfigRead where
  | readErr
  | parseErr
  | ok (t : TomlTable)
deriving DecidableEq, Repr

/-- Function `config_from_file` (main.rs lines 86-109): logs a warning and returns
`None` on a read or parse error, `Some value` otherwise. -/
def config_from_file : ConfigRead → Option TomlTable
  | .readErr => none
  | .parseErr => none
  | .ok t => some t

/-- A computation that may end in a Rust panic instead of a value. -/
inductive PanicOr (α : Type) where
  | panic (msg : String)
  | value (a : α)
deriving DecidableEq, Repr

/-- The closure body of the cascade in main.rs line 179:
`config.and_then(|c| c["remote"].as_str().map(String::from))`.
`c["remote"]` is `toml`'s panicking `Index`; `.as_str()` yields `None`
on a non-string value. -/
def remoteOfConfig (c : TomlTable) : PanicOr (Option String) :=
  match tomlGet c "remote" with
  | none => .panic "index not found"
  | some (.str s) => .value (some s)
  | some .other => .value none

/-- The cascade `configs.into_iter().flat_map(...).next()` (main.rs lines 177-181):
lazily scan the configs in order for the first one yielding a remote. -/
def firstRemote : List (Option TomlTable) → PanicOr (Option String)
  | [] => .value none
  | none :: rest => firstRemote rest
  | some c :: rest =>
    match remoteOfConfig c with
    | .panic m => .panic m
    | .value (some s) => .value (some s)
    | .value none => firstRemote rest

/-- Resolution `remote.or_else(|| configs...next())` (main.rs lines 175-181): the CLI
value wins; otherwise the config cascade is consulted lazily. -/
def resolve_build_server (remote : Option String) (configs : List (Option TomlTable)) :
    PanicOr (Option String) :=
  match remote with
  | some r => .value (some r)
  | none => firstRemote configs

/-! ## Command-line options and the external environment -/

/-- The fields of `Opts::Remote` (main.rs lines 47-82). -/
structure Opts where
  remote : Option String
  build_env : List String
  copy_back : Option (Option String)
  no_copy_lock : Bool
  manifest_path : String
  hidden : Bool
  ignore_patches : Bool
  remote_commands : List String
deriving DecidableEq, Repr

/-- One package record from `cargo metadata`, as far as main.rs reads it. -/
structure Package where
  manifest_path : String
  name : String
deriving DecidableEq, Repr

/-- The `cargo metadata` output main.rs consumes. -/
structure Metadata where
  workspace_root : String
  packages : List Package
deriving DecidableEq, Repr

/-- The exit status of a child process: `success()` and `code()`. -/
structure ProcStatus where
  success : Bool
  code : Option Int
deriving DecidableEq, Repr

/-- The result of `Command::output()`: an io error when the command could not
be run, or the process ran and returned a status. -/
inductive CmdResult where
  | ioErr (msg : String)
  | ran (st : ProcStatus)
deriving DecidableEq, Repr

/-- Everything the outside world feeds back into one run of `main`. -/
structure Env where
  metadata : Except String Metadata
  localConfig : ConfigRead
  xdgConfig : Option ConfigRead
  processEnv : List (String × String)
  projectTransfer : CmdResult
  patchesResult : Except String Unit
  sshResult : CmdResult
  copyBackResult : CmdResult
  copyLockResult : CmdResult
deriving Repr

/-- The externally visible events `main` performs, in order. -/
inductive Event where
  | projectTransfer (src dst : String) (hidden : Bool)
  | patchStage (hidden : Bool)
  | remoteBuild (server cmd : String)
  | copyBackTransfer (src dst : String)
  | lockTransfer (src dst : String)
deriving DecidableEq, Repr

/-- How a run of `main` terminates. -/
inductive Outcome where
  | exited (code : Int)
  | panicked (msg : String)
  | normal
deriving DecidableEq, Repr

/-- The constant `WHITELISTED_ENV_VARS` (main.rs line 17). -/
def WHITELISTED_ENV_VARS : List String :=
  ["RUST_BACKTRACE", "RUST_LOG", "CARGO_INCREMENTAL"]

/-- Rust `PathBuf::file_name` as used on the project dir: the last `/`-separated
component. -/
def fileName (s : String) : String :=
  ((s.splitOn "/").getLast?).getD s

/-- The two config sources built in main.rs lines 166-172: the project-local
`.cargo-remote.toml`, then the XDG `cargo-remote.toml` (whose
`find_config_file` may find nothing, in which case `config_from_file` is
never called on it). -/
def envConfigs (env : Env) : List (Option TomlTable) :=
  [config_from_file env.localConfig, env.xdgConfig.bind config_from_file]

/-- main.rs lines 291-293: propagate a failing remote status as the process
exit code (1 when none), terminate normally otherwise. -/
def finalStep (st : ProcStatus) : Outcome :=
  if st.success then .normal else .exited (st.code.getD 1)

/-- main.rs lines 267-289: the Cargo.lock copy-back, unless disabled, then
the final status check. -/
def lockStep (o : Opts) (env : Env) (st : ProcStatus) (bs bp pd : String)
    (tr : List Event) : List Event × Outcome :=
  if o.no_copy_lock then (tr, finalStep st)
  else
    let ev := Event.lockTransfer (bs ++ ":" ++ bp ++ "/Cargo.lock") (pd ++ "/Cargo.lock")
    match env.copyLockResult with
    | .ioErr _ => (tr ++ [ev], .exited (-7))
    | .ran _ => (tr ++ [ev], finalStep st)

/-- main.rs lines 239-265: the artifact copy-back when requested, then the
lock copy-back. -/
def copyBackStep (o : Opts) (env : Env) (st : ProcStatus) (bs bp pd : String)
    (tr : List Event) : List Event × Outcome :=
  match o.copy_back with
  | none => lockStep o env st bs bp pd tr
  | some fileOpt =>
    let f := fileOpt.getD ""
    let ev := Event.copyBackTransfer (bs ++ ":" ++ bp ++ "target/" ++ f)
      (pd ++ "/target/" ++ f)
    match env.copyBackResult with
    | .ioErr _ => (tr ++ [ev], .exited (-6))
    | .ran _ => lockStep o env st bs bp pd (tr ++ [ev])

/-- The `project_name` value (main.rs lines 150-160): the package whose manifest sits
at the workspace root, or the project directory's file name. -/
def projectNameOf (md : Metadata) : String :=
  ((md.packages.find?
    (fun p => p.manifest_path == md.workspace_root ++ "/Cargo.toml")).map
      (fun p => p.name)).getD (fileName md.workspace_root)

/-- The `build_path` value (main.rs lines 162-163). -/
def buildPathOf (md : Metadata) : String :=
  "~/remote-builds/" ++ projectNameOf md ++ "/"

/-- The remote `build_command` string (main.rs lines 212-223), with the
whitelisted process environment variables appended to the user's build env. -/
def buildCommandOf (o : Opts) (env : Env) (md : Metadata) : String :=
  "cd " ++ buildPathOf md ++ "; eval $(direnv export bash); " ++
    String.intercalate " " (o.build_env ++
      ((env.processEnv.filter
        (fun kv => WHITELISTED_ENV_VARS.any (fun w => w == kv.1))).map
        (fun kv => kv.1 ++ "=\x22" ++ kv.2 ++ "\x22"))) ++
    " cargo " ++ String.intercalate " " o.remote_commands

/-- The whole of `main` (main.rs lines 111-294) as a pure function from the
options and the environment to the event trace and the final outcome. -/
def mainRun (o : Opts) (env : Env) : List Event × Outcome :=
  match env.metadata with
  | .error _ => ([], .exited 1)
  | .ok md =>
    match resolve_build_server o.remote (envConfigs env) with
    | .panic m => ([], .panicked m)
    | .value none => ([], .exited (-3))
    | .value (some build_server) =>
      let ev1 := Event.projectTransfer (md.workspace_root ++ "/")
        (build_server ++ ":" ++ buildPathOf md) o.hidden
      match env.projectTransfer with
      | .ioErr _ => ([ev1], .exited (-4))
      | .ran _ =>
        let patchEvents := if o.ignore_patches then [] else [Event.patchStage o.hidden]
        let ev2 := Event.remoteBuild build_server (buildCommandOf o env md)
        let tr := ev1 :: patchEvents ++ [ev2]
        match env.sshResult with
        | .ioErr _ => (tr, .exited (-5))
        | .ran st => copyBackStep o env st build_server (buildPathOf md) md.workspace_root tr

/-- Function `copy_to_remote` (main.rs lines 296-325) as the argument list it hands to
rsync, in order. -/
def copy_to_remote_args (local_dir remote_dir : String) (hidden : Bool) :
    List String :=
  ["--links", "--recursive", "--quiet", "--delete", "--compress",
    "--info=progress2", "--exclude", "target"] ++
  (if hidden then [] else ["--exclude", ".*"]) ++
  ["--rsync-path", "mkdir -p remote-builds && rsync", local_dir, remote_dir]

/-- Whether an rsync argument list contains an `--exclude` option immediately
followed by the pattern `pat`. -/
def hasExcludePattern (pat : String) : List String → Bool
  | [] => false
  | [_] => false
  | a :: b :: rest =>
    (a == "--exclude" && b == pat) || hasExcludePattern pat (b :: rest)

/-! ## The patches pipeline

Modelled from the spec: `main.rs` declares `mod patches;` and calls
`patches::handle_patches`, but the file `src/patches.rs` is not part of the
sources given; the definitions below model the Manifest Reader, Patch
Extractor, Path Resolver and Mirror Planner from the specification text
(spec sections 2-4, 8). -/

/-- A filesystem path as its list of segments; canonical paths carry no
`.`/`..` segments and no symbolic links. -/
abbrev FsPath := List String

/-- Modelled from the spec: the declared target of an override entry, either
a registry/version reference (opaque) or a local filesystem path, possibly
relative to the declaring manifest. -/
inductive PatchTarget where
  | registry (spec : String)
  | path (raw : FsPath)
deriving DecidableEq, Repr

/-- Modelled from the spec: one well-formed override declaration. -/
structure OverrideEntry where
  name : String
  target : PatchTarget
deriving DecidableEq, Repr

/-- Modelled from the spec: an item of a manifest's override section, which
may be malformed (spec 4.2: skipped with a recoverable warning). -/
inductive RawOverride where
  | malformed
  | entry (e : OverrideEntry)
deriving DecidableEq, Repr

/-- Modelled from the spec: one parsed manifest; its own directory and its
override section in declaration order. -/
structure Manifest where
  dir : FsPath
  overrides : List RawOverride
deriving DecidableEq, Repr

/-- The local filesystem, abstracted as a canonicalization oracle:
`canon p = none` when the path does not exist on disk, `some c` gives its
canonical absolute form (symlinks and dot segments resolved). -/
structure FS where
  canon : FsPath → Option FsPath

/-- Modelled from the spec: the recoverable warnings of the pipeline
(spec section 7). -/
inductive PatchWarning where
  | malformedOverride (mdir : FsPath)
  | patchPathMissing (name : String) (raw : FsPath) (mdir : FsPath)
  | transferFailed (src : FsPath)
deriving DecidableEq, Repr

/-- The outcome of resolving a single raw override. -/
inductive Resolved where
  | dropped
  | warn (w : PatchWarning)
  | candidate (c : FsPath)
deriving DecidableEq, Repr

/-- Modelled from the spec: Patch Extractor plus Path Resolver on one entry
(spec 4.2-4.3): a malformed entry warns; a registry target is dropped early;
a path target is resolved against the manifest directory and canonicalized,
warning `PatchPathMissing` when it does not exist on disk. -/
def resolveOverride (fs : FS) (mdir : FsPath) (r : RawOverride) : Resolved :=
  match r with
  | .malformed => .warn (.malformedOverride mdir)
  | .entry e =>
    match e.target with
    | .registry _ => .dropped
    | .path raw =>
      match fs.canon (mdir ++ raw) with
      | none => .warn (.patchPathMissing e.name raw mdir)
      | some c => .candidate c

/-- Resolve a list of raw overrides in declaration order, collecting the
candidate canonical paths and the warnings; no entry aborts the list. -/
def resolveList (fs : FS) (mdir : FsPath) :
    List RawOverride → List FsPath × List PatchWarning
  | [] => ([], [])
  | r :: rs =>
    let rest := resolveList fs mdir rs
    match resolveOverride fs mdir r with
    | .dropped => rest
    | .warn w => (rest.1, w :: rest.2)
    | .candidate c => (c :: rest.1, rest.2)

/-- All candidate canonical paths and warnings across the manifest set, in
manifest order then declaration order. -/
def allCandidates (fs : FS) : List Manifest → List FsPath × List PatchWarning
  | [] => ([], [])
  | m :: ms =>
    let here := resolveList fs m.dir m.overrides
    let rest := allCandidates fs ms
    (here.1 ++ rest.1, here.2 ++ rest.2)

/-- Whether a canonical path lies inside the primary project tree rooted at
the canonical `root`. -/
def insideTree (root p : FsPath) : Bool :=
  root.isPrefixOf p

/-- Keep-first deduplication of a list of canonical paths. -/
def dedupKeepFirst : List FsPath → List FsPath
  | [] => []
  | p :: ps => p :: dedupKeepFirst (ps.filter (fun q => ¬ q == p))
termination_by l => l.length
decreasing_by
  exact Nat.lt_succ_of_le (ps.length_filter_le _)

/-- Modelled from the spec: the Path Resolver's output (spec 4.3): the
deduplicated External Paths, with candidates inside the primary project tree
discarded, in first-appearance order. -/
def externalPaths (fs : FS) (root : FsPath) (ms : List Manifest) : List FsPath :=
  dedupKeepFirst ((allCandidates fs ms).1.filter (fun c => ¬ insideTree root c))

/-- One Mirror Plan Entry: an External Path paired with its remote
destination. -/
structure PlanEntry where
  src : FsPath
  dest : FsPath
deriving DecidableEq, Repr

/-- Modelled from the spec: the Mirror Planner's destination choice
(spec 4.4): a destination under the fixed remote staging root whose name is
derived deterministically from the canonical source path — modelled as the
canonical source path's own segments laid out under the staging root, which
is collision-free even when two externals share a leaf directory name. -/
def destFor (stagingRoot src : FsPath) : FsPath :=
  stagingRoot ++ src

/-- Modelled from the spec: the Mirror Planner (spec 4.4): one plan entry
per External Path, in order. -/
def mirrorPlan (stagingRoot : FsPath) (externals : List FsPath) : List PlanEntry :=
  externals.map (fun s => ⟨s, destFor stagingRoot s⟩)

/-- The whole planning pipeline: Manifest Reader output to Mirror Plan plus
warnings. -/
def planPipeline (fs : FS) (root stagingRoot : FsPath) (ms : List Manifest) :
    List PlanEntry × List PatchWarning :=
  (mirrorPlan stagingRoot (externalPaths fs root ms), (allCandidates fs ms).2)

/-- Modelled from the spec: executing the plan (spec section 5): each entry
is handed to the Transfer Executor in order; a failed transfer degrades to a
`transferFailed` warning and execution proceeds to the next entry. -/
def executePlan (transfer : PlanEntry → Bool) :
    List PlanEntry → List PlanEntry × List PatchWarning
  | [] => ([], [])
  | e :: es =>
    let rest := executePlan transfer es
    if transfer e then (e :: rest.1, rest.2)
    else (rest.1, .transferFailed e.src :: rest.2)

/-! ## Helper lemmas -/

theorem mem_dedupKeepFirst {a : FsPath} :
    ∀ {l : List FsPath}, a ∈ dedupKeepFirst l ↔ a ∈ l := by
  intro l
  induction l using dedupKeepFirst.induct with
  | case1 => simp [dedupKeepFirst]
  | case2 p ps ih =>
    rw [dedupKeepFirst]
    by_cases hap : a = p
    · simp [hap]
    · simp only [List.mem_cons, hap, false_or, ih, List.mem_filter]
      constructor
      · exact fun h => h.1
      · intro h
        exact ⟨h, by simp [hap]⟩

theorem dedupKeepFirst_nodup : ∀ (l : List FsPath), (dedupKeepFirst l).Nodup := by
  intro l
  induction l using dedupKeepFirst.induct with
  | case1 => simp [dedupKeepFirst]
  | case2 p ps ih =>
    rw [dedupKeepFirst]
    refine List.nodup_cons.mpr ⟨?_, ih⟩
    intro hmem
    have := (mem_dedupKeepFirst.mp hmem)
    simp at this

theorem mem_resolveList {fs : FS} {mdir : FsPath} {c : FsPath}
    {r : RawOverride} {rs : List RawOverride}
    (hr : r ∈ rs) (hc : resolveOverride fs mdir r = .candidate c) :
    c ∈ (resolveList fs mdir rs).1 := by
  induction rs with
  | nil => cases hr
  | cons r0 rs ih =>
    rcases List.mem_cons.mp hr with h | h
    · subst h
      simp [resolveList, hc]
    · have hmem := ih h
      simp only [resolveList]
      rcases hres : resolveOverride fs mdir r0 with _ | w | c0 <;> simp [hres, hmem]

theorem mem_allCandidates {fs : FS} {c : FsPath} {m : Manifest}
    {ms : List Manifest} {r : RawOverride}
    (hm : m ∈ ms) (hr : r ∈ m.overrides)
    (hc : resolveOverride fs m.dir r = .candidate c) :
    c ∈ (allCandidates fs ms).1 := by
  induction ms with
  | nil => cases hm
  | cons m0 ms ih =>
    rcases List.mem_cons.mp hm with h | h
    · subst h
      simp only [allCandidates, List.mem_append]
      exact Or.inl (mem_resolveList hr hc)
    · simp only [allCandidates, List.mem_append]
      exact Or.inr (ih h)

theorem mem_externalPaths {fs : FS} {root c : FsPath} {ms : List Manifest} :
    c ∈ externalPaths fs root ms ↔
      c ∈ (allCandidates fs ms).1 ∧ insideTree root c = false := by
  unfold externalPaths
  rw [mem_dedupKeepFirst, List.mem_filter]
  simp

theorem lockStep_trace (o : Opts) (env : Env) (st : ProcStatus) (bs bp pd : String)
    (tr : List Event) :
    ∃ suf, (lockStep o env st bs bp pd tr).1 = tr ++ suf ∧
      ∀ ev ∈ suf, (∃ s d, ev = Event.copyBackTransfer s d) ∨
        ∃ s d, ev = Event.lockTransfer s d := by
  unfold lockStep
  cases h : o.no_copy_lock
  · cases hc : env.copyLockResult <;>
      exact ⟨[Event.lockTransfer (bs ++ ":" ++ bp ++ "/Cargo.lock") (pd ++ "/Cargo.lock")],
        by simp, by simp⟩
  · exact ⟨[], by simp, by simp⟩

theorem copyBackStep_trace (o : Opts) (env : Env) (st : ProcStatus) (bs bp pd : String)
    (tr : List Event) :
    ∃ suf, (copyBackStep o env st bs bp pd tr).1 = tr ++ suf ∧
      ∀ ev ∈ suf, (∃ s d, ev = Event.copyBackTransfer s d) ∨
        ∃ s d, ev = Event.lockTransfer s d := by
  unfold copyBackStep
  cases hcb : o.copy_back with
  | none =>
    exact lockStep_trace o env st bs bp pd tr
  | some fileOpt =>
    cases hr : env.copyBackResult with
    | ioErr m =>
      exact ⟨[Event.copyBackTransfer (bs ++ ":" ++ bp ++ "target/" ++ fileOpt.getD "")
        (pd ++ "/target/" ++ fileOpt.getD "")], by simp, by simp⟩
    | ran st2 =>
      obtain ⟨suf, hsuf, hall⟩ := lockStep_trace o env st bs bp pd
        (tr ++ [Event.copyBackTransfer (bs ++ ":" ++ bp ++ "target/" ++ fileOpt.getD "")
          (pd ++ "/target/" ++ fileOpt.getD "")])
      refine ⟨Event.copyBackTransfer (bs ++ ":" ++ bp ++ "target/" ++ fileOpt.getD "")
        (pd ++ "/target/" ++ fileOpt.getD "") :: suf, ?_, ?_⟩
      · simpa using hsuf
      · intro ev hev
        rcases List.mem_cons.mp hev with rfl | h
        · exact Or.inl ⟨_, _, rfl⟩
        · exact hall ev h

theorem mainRun_trace_shape (o : Opts) (env : Env) (md : Metadata) (bs : String)
    (stp : ProcStatus)
    (hm : env.metadata = .ok md)
    (hr : resolve_build_server o.remote (envConfigs env) = .value (some bs))
    (hp : env.projectTransfer = .ran stp) :
    ∃ suf,
      (mainRun o env).1 =
        Event.projectTransfer (md.workspace_root ++ "/")
            (bs ++ ":" ++ buildPathOf md) o.hidden ::
          ((if o.ignore_patches then ([] : List Event) else [Event.patchStage o.hidden]) ++
            Event.remoteBuild bs (buildCommandOf o env md) :: suf) ∧
      ∀ ev ∈ suf, (∃ s d, ev = Event.copyBackTransfer s d) ∨
        ∃ s d, ev = Event.lockTransfer s d := by
  unfold mainRun
  rw [hm]
  simp only [hr, hp]
  cases hs : env.sshResult with
  | ioErr m =>
    refine ⟨[], ?_, by simp⟩
    simp
  | ran st =>
    obtain ⟨suf, hsuf, hall⟩ := copyBackStep_trace o env st bs (buildPathOf md)
      md.workspace_root (Event.projectTransfer (md.workspace_root ++ "/")
        (bs ++ ":" ++ buildPathOf md) o.hidden ::
      (if o.ignore_patches then ([] : List Event) else [Event.patchStage o.hidden]) ++
        [Event.remoteBuild bs (buildCommandOf o env md)])
    refine ⟨suf, ?_, hall⟩
    rw [hsuf]
    simp

/-! ## Concrete sample inputs for witnesses -/

def sampleMeta : Metadata :=
  ⟨"/home/u/proj", [⟨"/home/u/proj/Cargo.toml", "proj"⟩]⟩

def sampleOpts : Opts :=
  { remote := some "srv", build_env := [], copy_back := some none,
    no_copy_lock := false, manifest_path := "Cargo.toml", hidden := false,
    ignore_patches := false, remote_commands := ["build"] }

def sampleEnv : Env :=
  { metadata := .ok sampleMeta
    localConfig := .readErr
    xdgConfig := none
    processEnv := []
    projectTransfer := .ran ⟨true, some 0⟩
    patchesResult := .ok ()
    sshResult := .ran ⟨false, some 101⟩
    copyBackResult := .ran ⟨true, some 0⟩
    copyLockResult := .ran ⟨true, some 0⟩ }

/-! ## Claims about main -/

/-- C1: when `cargo metadata` on the primary manifest fails (absent,
unreadable or malformed manifest), `main` exits with code 1 and the event
trace is empty: no project transfer, no patch stage (hence no mirror plan),
no remote build. -/
theorem primary_manifest_failure_is_fatal (o : Opts) (env : Env) (e : String)
    (h : env.metadata = .error e) :
    mainRun o env = ([], .exited 1) := by
  unfold mainRun
  rw [h]

/-- C1 witness. -/
theorem primary_manifest_failure_is_fatal_witness :
    ({ sampleEnv with metadata := .error "No such file" } : Env).metadata =
        .error "No such file" ∧
      mainRun sampleOpts { sampleEnv with metadata := .error "No such file" } =
        ([], .exited 1) :=
  ⟨rfl, primary_manifest_failure_is_fatal sampleOpts
    { sampleEnv with metadata := .error "No such file" } "No such file" rfl⟩

/-- C2: override failures degrade to warnings and never abort: the outcome
and trace of `main` do not depend on the result of `handle_patches`; a
single override that resolves to a warning leaves the other candidates
untouched and records the warning; a failed external transfer records a
warning and execution proceeds; and once the project transfer has happened
the remote build command is issued whatever the patch results were. -/
theorem override_failures_never_abort :
    (∀ (o : Opts) (env : Env) (m : String),
        mainRun o { env with patchesResult := .error m } = mainRun o env) ∧
    (∀ (fs : FS) (mdir : FsPath) (r : RawOverride) (w : PatchWarning)
        (rs : List RawOverride),
        resolveOverride fs mdir r = .warn w →
        resolveList fs mdir (r :: rs) =
          ((resolveList fs mdir rs).1, w :: (resolveList fs mdir rs).2)) ∧
    (∀ (t : PlanEntry → Bool) (e : PlanEntry) (es : List PlanEntry),
        t e = false →
        executePlan t (e :: es) =
          ((executePlan t es).1, .transferFailed e.src :: (executePlan t es).2)) ∧
    (∀ (o : Opts) (env : Env) (md : Metadata) (bs : String) (stp : ProcStatus),
        env.metadata = .ok md →
        resolve_build_server o.remote (envConfigs env) = .value (some bs) →
        env.projectTransfer = .ran stp →
        Event.remoteBuild bs (buildCommandOf o env md) ∈ (mainRun o env).1) := by
  refine ⟨?_, ?_, ?_, ?_⟩
  · intro o env m
    cases env
    rfl
  · intro fs mdir r w rs h
    simp [resolveList, h]
  · intro t e es h
    simp [executePlan, h]
  · intro o env md bs stp hm hr hp
    obtain ⟨suf, hshape, _⟩ := mainRun_trace_shape o env md bs stp hm hr hp
    rw [hshape]
    simp

/-- C2 witness. -/
theorem override_failures_never_abort_witness :
    (mainRun sampleOpts { sampleEnv with patchesResult := .error "rsync failed" } =
        mainRun sampleOpts sampleEnv) ∧
      (resolveOverride ⟨fun _ => none⟩ ["w"] (.entry ⟨"foo", .path ["f"]⟩) =
          .warn (.patchPathMissing "foo" ["f"] ["w"]) ∧
        resolveList ⟨fun _ => none⟩ ["w"] [.entry ⟨"foo", .path ["f"]⟩] =
          ([], [.patchPathMissing "foo" ["f"] ["w"]])) ∧
      (executePlan (fun _ => false) [⟨["e"], ["s", "e"]⟩] =
          ([], [.transferFailed ["e"]])) ∧
      Event.remoteBuild "srv" (buildCommandOf sampleOpts sampleEnv sampleMeta) ∈
        (mainRun sampleOpts sampleEnv).1 :=
  ⟨override_failures_never_abort.1 sampleOpts sampleEnv "rsync failed",
    ⟨by decide,
      override_failures_never_abort.2.1 ⟨fun _ => none⟩ ["w"]
        (.entry ⟨"foo", .path ["f"]⟩) (.patchPathMissing "foo" ["f"] ["w"]) []
        (by decide)⟩,
    override_failures_never_abort.2.2.1 (fun _ => false) ⟨["e"], ["s", "e"]⟩ []
      rfl,
    override_failures_never_abort.2.2.2 sampleOpts sampleEnv sampleMeta "srv"
      ⟨true, some 0⟩ rfl rfl rfl⟩

/-- C4: whenever the patch mirroring stage occurs, it occurs immediately
after the project tree transfer and before the remote build command. -/
theorem patch_stage_after_transfer_before_build (o : Opts) (env : Env) (hid : Bool)
    (h : Event.patchStage hid ∈ (mainRun o env).1) :
    ∃ src dst bs cmd rest,
      (mainRun o env).1 =
        Event.projectTransfer src dst o.hidden :: Event.patchStage hid ::
          Event.remoteBuild bs cmd :: rest := by
  cases hm : env.metadata with
  | error e =>
    unfold mainRun at h
    rw [hm] at h
    simp at h
  | ok md =>
    cases hr : resolve_build_server o.remote (envConfigs env) with
    | panic m =>
      unfold mainRun at h
      rw [hm] at h
      simp [hr] at h
    | value ob =>
      cases ob with
      | none =>
        unfold mainRun at h
        rw [hm] at h
        simp [hr] at h
      | some bs =>
        cases hp : env.projectTransfer with
        | ioErr m =>
          unfold mainRun at h
          rw [hm] at h
          simp [hr, hp] at h
        | ran stp =>
          obtain ⟨suf, hshape, hall⟩ := mainRun_trace_shape o env md bs stp hm hr hp
          cases hip : o.ignore_patches with
          | false =>
            rw [hip] at hshape
            simp at hshape
            rw [hshape] at h
            simp at h
            rcases h with h | h
            · subst h
              exact ⟨_, _, _, _, suf, hshape⟩
            · rcases hall _ h with ⟨s, d, hEq⟩ | ⟨s, d, hEq⟩ <;> cases hEq
          | true =>
            rw [hip] at hshape
            simp at hshape
            rw [hshape] at h
            simp at h
            rcases hall _ h with ⟨s, d, hEq⟩ | ⟨s, d, hEq⟩ <;> cases hEq

/-- C4 witness. -/
theorem patch_stage_after_transfer_before_build_witness :
    Event.patchStage false ∈ (mainRun sampleOpts sampleEnv).1 ∧
      ∃ src dst bs cmd rest,
        (mainRun sampleOpts sampleEnv).1 =
          Event.projectTransfer src dst sampleOpts.hidden ::
            Event.patchStage false :: Event.remoteBuild bs cmd :: rest :=
  ⟨by decide,
    patch_stage_after_transfer_before_build sampleOpts sampleEnv false (by decide)⟩

/-- C8: the rsync invocation built by `copy_to_remote` carries an
`--exclude .*` option (dropping names beginning with a dot) exactly when the
hidden flag is unset, and the flag handed to the project transfer is always
the command-line flag. -/
theorem hidden_files_iff_flag (l r : String) (hflag : Bool) (o : Opts) (env : Env)
    (src dst : String) (hid : Bool)
    (hl : l ≠ "--exclude")
    (hev : Event.projectTransfer src dst hid ∈ (mainRun o env).1) :
    hasExcludePattern ".*" (copy_to_remote_args l r hflag) = !hflag ∧
      hid = o.hidden := by
  constructor
  · cases hflag <;> simp +decide [copy_to_remote_args, hasExcludePattern, hl]
  · cases hm : env.metadata with
    | error e =>
      unfold mainRun at hev
      rw [hm] at hev
      simp at hev
    | ok md =>
      cases hr : resolve_build_server o.remote (envConfigs env) with
      | panic m =>
        unfold mainRun at hev
        rw [hm] at hev
        simp [hr] at hev
      | value ob =>
        cases ob with
        | none =>
          unfold mainRun at hev
          rw [hm] at hev
          simp [hr] at hev
        | some bs =>
          cases hp : env.projectTransfer with
          | ioErr m =>
            unfold mainRun at hev
            rw [hm] at hev
            simp [hr, hp] at hev
            exact hev.2.2
          | ran stp =>
            obtain ⟨suf, hshape, hall⟩ := mainRun_trace_shape o env md bs stp hm hr hp
            rw [hshape] at hev
            simp only [List.mem_cons, List.mem_append] at hev
            rcases hev with hev | hev | hev
            · cases hev
              rfl
            · cases hip : o.ignore_patches <;> rw [hip] at hev <;> simp at hev
            · rcases hev with hev | hev
              · cases hev
              · rcases hall _ hev with ⟨s, d, hEq⟩ | ⟨s, d, hEq⟩ <;> cases hEq

/-- C8 witness. -/
theorem hidden_files_iff_flag_witness :
    ("/home/u/proj/" ≠ "--exclude") ∧
      Event.projectTransfer "/home/u/proj/" "srv:~/remote-builds/proj/" false ∈
        (mainRun sampleOpts sampleEnv).1 ∧
      (hasExcludePattern ".*"
          (copy_to_remote_args "/home/u/proj/" "srv:~/remote-builds/proj/" true) =
        !true ∧ false = sampleOpts.hidden) :=
  ⟨by decide, by decide,
    hidden_files_iff_flag "/home/u/proj/" "srv:~/remote-builds/proj/" true
      sampleOpts sampleEnv "/home/u/proj/" "srv:~/remote-builds/proj/" false
      (by decide) (by decide)⟩

/-- C9: a non-success remote cargo status makes the program exit with the
remote exit code (1 when none); a success status ends the run normally. -/
theorem remote_status_propagated (o : Opts) (env : Env) (md : Metadata)
    (bs : String) (stp st : ProcStatus)
    (hm : env.metadata = .ok md)
    (hr : resolve_build_server o.remote (envConfigs env) = .value (some bs))
    (hp : env.projectTransfer = .ran stp)
    (hs : env.sshResult = .ran st)
    (hcb : ∀ f, o.copy_back = some f → ∃ st2, env.copyBackResult = .ran st2)
    (hcl : o.no_copy_lock = false → ∃ st3, env.copyLockResult = .ran st3) :
    (mainRun o env).2 =
      if st.success then Outcome.normal else Outcome.exited (st.code.getD 1) := by
  unfold mainRun
  rw [hm]
  simp only [hr, hp, hs]
  unfold copyBackStep
  cases hc : o.copy_back with
  | none =>
    unfold lockStep
    cases hnl : o.no_copy_lock with
    | false =>
      obtain ⟨st3, h3⟩ := hcl hnl
      simp [h3, finalStep]
    | true =>
      simp [finalStep]
  | some f =>
    obtain ⟨st2, h2⟩ := hcb f hc
    simp only [h2]
    unfold lockStep
    cases hnl : o.no_copy_lock with
    | false =>
      obtain ⟨st3, h3⟩ := hcl hnl
      simp [h3, finalStep]
    | true =>
      simp [finalStep]

/-- C9 witness. -/
theorem remote_status_propagated_witness :
    sampleEnv.sshResult = .ran ⟨false, some 101⟩ ∧
      (mainRun sampleOpts sampleEnv).2 =
        if (false : Bool) then Outcome.normal
        else Outcome.exited ((some (101 : Int)).getD 1) :=
  ⟨rfl,
    remote_status_propagated sampleOpts sampleEnv sampleMeta "srv" ⟨true, some 0⟩
      ⟨false, some 101⟩ rfl rfl rfl rfl
      (fun f h => ⟨⟨true, some 0⟩, rfl⟩) (fun h => ⟨⟨true, some 0⟩, rfl⟩)⟩

/-- C10: with copy-back requested and lock retrieval enabled, both
transfer-back steps run even when the remote build failed, and only then is
the failing status propagated as the exit code. -/
theorem copy_back_runs_before_status (o : Opts) (env : Env) (md : Metadata)
    (bs : String) (stp st st2 st3 : ProcStatus) (f : Option String)
    (hm : env.metadata = .ok md)
    (hr : resolve_build_server o.remote (envConfigs env) = .value (some bs))
    (hp : env.projectTransfer = .ran stp)
    (hs : env.sshResult = .ran st)
    (hfail : st.success = false)
    (hcb : o.copy_back = some f)
    (hnl : o.no_copy_lock = false)
    (h2 : env.copyBackResult = .ran st2)
    (h3 : env.copyLockResult = .ran st3) :
    (mainRun o env).1 =
      Event.projectTransfer (md.workspace_root ++ "/")
          (bs ++ ":" ++ buildPathOf md) o.hidden ::
        ((if o.ignore_patches then ([] : List Event) else [Event.patchStage o.hidden]) ++
          [Event.remoteBuild bs (buildCommandOf o env md),
            Event.copyBackTransfer
              (bs ++ ":" ++ buildPathOf md ++ "target/" ++ f.getD "")
              (md.workspace_root ++ "/target/" ++ f.getD ""),
            Event.lockTransfer (bs ++ ":" ++ buildPathOf md ++ "/Cargo.lock")
              (md.workspace_root ++ "/Cargo.lock")]) ∧
      (mainRun o env).2 = .exited (st.code.getD 1) := by
  unfold mainRun
  rw [hm]
  simp only [hr, hp, hs]
  unfold copyBackStep
  rw [hcb]
  simp only [h2]
  unfold lockStep
  rw [hnl]
  simp only [Bool.false_eq_true, if_false, h3, finalStep, hfail]
  constructor <;> simp

/-- C10 witness. -/
theorem copy_back_runs_before_status_witness :
    (sampleEnv.sshResult = .ran ⟨false, some 101⟩ ∧
        sampleOpts.copy_back = some none ∧ sampleOpts.no_copy_lock = false) ∧
      (mainRun sampleOpts sampleEnv).1 =
        Event.projectTransfer ("/home/u/proj" ++ "/")
            ("srv" ++ ":" ++ buildPathOf sampleMeta) sampleOpts.hidden ::
          ((if sampleOpts.ignore_patches then ([] : List Event)
              else [Event.patchStage sampleOpts.hidden]) ++
            [Event.remoteBuild "srv" (buildCommandOf sampleOpts sampleEnv sampleMeta),
              Event.copyBackTransfer
                ("srv" ++ ":" ++ buildPathOf sampleMeta ++ "target/" ++
                  (none : Option String).getD "")
                ("/home/u/proj" ++ "/target/" ++ (none : Option String).getD ""),
              Event.lockTransfer
                ("srv" ++ ":" ++ buildPathOf sampleMeta ++ "/Cargo.lock")
                ("/home/u/proj" ++ "/Cargo.lock")]) ∧
        (mainRun sampleOpts sampleEnv).2 =
          .exited ((some (101 : Int)).getD 1) :=
  ⟨⟨rfl, rfl, rfl⟩,
    copy_back_runs_before_status sampleOpts sampleEnv sampleMeta "srv"
      ⟨true, some 0⟩ ⟨false, some 101⟩ ⟨true, some 0⟩ ⟨true, some 0⟩ none
      rfl rfl rfl rfl rfl rfl rfl rfl rfl⟩

def optsC7 : Opts := { sampleOpts with remote := none }

def envC7 : Env :=
  { sampleEnv with
    localConfig := .ok [("other", .str "x")]
    xdgConfig := some (.ok [("remote", .str "srv2")]) }

/-- C7 counterexample: the project-local config parses but has no `remote`
key; the claim says it is skipped in favor of the XDG config (which does
supply `remote = "srv2"`), but `c["remote"]` is `toml`'s panicking `Index`,
so the program panics; no transfer, no exit code, no fallthrough. -/
theorem config_missing_remote_key_panics :
    mainRun optsC7 envC7 = ([], .panicked "index not found") ∧
      remoteOfConfig [("remote", .str "srv2")] = .value (some "srv2") :=
  ⟨rfl, rfl⟩

/-- C7 (amended): the build server is the CLI value when given; otherwise
the configs are scanned in order, project-local before XDG; a source that is
missing, unreadable or malformed is skipped, and so is a parsed config whose
`remote` entry is not a string; but a parsed config with no `remote` entry
at all panics instead of being skipped; when the scan is exhausted the
program exits fatally, code -3, with no transfer attempted; a panic likewise
precedes any transfer. -/
theorem build_server_cascade :
    (∀ (r : String) (configs : List (Option TomlTable)),
        resolve_build_server (some r) configs = .value (some r)) ∧
    (∀ env : Env, envConfigs env =
        [config_from_file env.localConfig, env.xdgConfig.bind config_from_file]) ∧
    (config_from_file .readErr = none ∧ config_from_file .parseErr = none) ∧
    (∀ rest : List (Option TomlTable),
        firstRemote (none :: rest) = firstRemote rest) ∧
    (∀ (c : TomlTable) (rest : List (Option TomlTable)) (s : String),
        tomlGet c "remote" = some (.str s) →
        firstRemote (some c :: rest) = .value (some s)) ∧
    (∀ (c : TomlTable) (rest : List (Option TomlTable)),
        tomlGet c "remote" = some .other →
        firstRemote (some c :: rest) = firstRemote rest) ∧
    (∀ (c : TomlTable) (rest : List (Option TomlTable)),
        tomlGet c "remote" = none →
        firstRemote (some c :: rest) = .panic "index not found") ∧
    (∀ (o : Opts) (env : Env) (md : Metadata),
        env.metadata = .ok md →
        resolve_build_server o.remote (envConfigs env) = .value none →
        mainRun o env = ([], .exited (-3))) ∧
    (∀ (o : Opts) (env : Env) (md : Metadata) (m : String),
        env.metadata = .ok md →
        resolve_build_server o.remote (envConfigs env) = .panic m →
        mainRun o env = ([], .panicked m)) := by
  refine ⟨fun r configs => rfl, fun env => rfl, ⟨rfl, rfl⟩, fun rest => rfl,
    ?_, ?_, ?_, ?_, ?_⟩
  · intro c rest s h
    simp [firstRemote, remoteOfConfig, h]
  · intro c rest h
    simp [firstRemote, remoteOfConfig, h]
  · intro c rest h
    simp [firstRemote, remoteOfConfig, h]
  · intro o env md hm hr
    unfold mainRun
    rw [hm]
    simp [hr]
  · intro o env md m hm hr
    unfold mainRun
    rw [hm]
    simp [hr]

/-- C7 (amended) witness. -/
theorem build_server_cascade_witness :
    resolve_build_server (some "cli") [] = .value (some "cli") ∧
      firstRemote [some [("remote", .str "srv9")]] = .value (some "srv9") ∧
      firstRemote [some [("remote", .other)]] = firstRemote [] ∧
      firstRemote [some [("other", .str "x")]] = .panic "index not found" ∧
      mainRun optsC7 { sampleEnv with localConfig := .readErr } =
        ([], .exited (-3)) ∧
      mainRun optsC7 envC7 = ([], .panicked "index not found") :=
  ⟨build_server_cascade.1 "cli" [],
    build_server_cascade.2.2.2.2.1 [("remote", .str "srv9")] [] "srv9" rfl,
    build_server_cascade.2.2.2.2.2.1 [("remote", .other)] [] rfl,
    build_server_cascade.2.2.2.2.2.2.1 [("other", .str "x")] [] rfl,
    build_server_cascade.2.2.2.2.2.2.2.1 optsC7
      { sampleEnv with localConfig := .readErr } sampleMeta rfl rfl,
    build_server_cascade.2.2.2.2.2.2.2.2 optsC7 envC7 sampleMeta "index not found"
      rfl rfl⟩

/-! ## Claims about the patches pipeline -/

/-- C6: an override path canonicalizing inside the primary project tree is
excluded from the plan: it is not an External Path and no Mirror Plan Entry
is emitted for it. -/
theorem inside_tree_never_mirrored (fs : FS) (root stagingRoot c : FsPath)
    (ms : List Manifest) (h : insideTree root c = true) :
    c ∉ externalPaths fs root ms ∧
      ∀ e ∈ (planPipeline fs root stagingRoot ms).1, e.src ≠ c := by
  constructor
  · intro hmem
    have := (mem_externalPaths.mp hmem).2
    rw [h] at this
    cases this
  · intro e he
    simp only [planPipeline, mirrorPlan, List.mem_map] at he
    obtain ⟨s, hs, rfl⟩ := he
    intro hEq
    simp only at hEq
    subst hEq
    have := (mem_externalPaths.mp hs).2
    rw [h] at this
    cases this

theorem countP_eq_one_of_nodup_mem {l : List FsPath} {c : FsPath}
    (hnd : l.Nodup) (hmem : c ∈ l) : l.countP (fun p => p == c) = 1 := by
  induction l with
  | nil => cases hmem
  | cons a l ih =>
    rw [List.countP_cons]
    rcases List.nodup_cons.mp hnd with ⟨hna, hndl⟩
    rcases List.mem_cons.mp hmem with rfl | h
    · have hz : l.countP (fun p => p == c) = 0 := by
        rw [List.countP_eq_zero]
        intro b hb
        simp only [beq_iff_eq]
        intro hbc
        exact hna (hbc ▸ hb)
      simp [hz]
    · have hone := ih hndl h
      have hne : (a == c) = false := by
        simp only [beq_eq_false_iff_ne, ne_eq]
        intro hac
        exact hna (hac ▸ h)
      simp [hone, hne]

theorem countP_src_mirrorPlan (stagingRoot c : FsPath) (l : List FsPath) :
    (mirrorPlan stagingRoot l).countP (fun e => e.src == c) =
      l.countP (fun p => p == c) := by
  induction l with
  | nil => rfl
  | cons a l ih =>
    simp only [mirrorPlan, List.map_cons, List.countP_cons] at *
    rw [ih]

/-- C3: any two override entries, in the same or different manifests and
under different relative spellings, whose declared paths canonicalize to the
same path outside the project tree yield exactly one External Path and
exactly one Mirror Plan Entry. -/
theorem dedup_same_canonical_path (fs : FS) (root stagingRoot c : FsPath)
    (ms : List Manifest) (m1 m2 : Manifest) (r1 r2 : RawOverride)
    (hm1 : m1 ∈ ms) (hm2 : m2 ∈ ms)
    (hr1 : r1 ∈ m1.overrides) (hr2 : r2 ∈ m2.overrides)
    (hc1 : resolveOverride fs m1.dir r1 = .candidate c)
    (hc2 : resolveOverride fs m2.dir r2 = .candidate c)
    (hout : insideTree root c = false) :
    (externalPaths fs root ms).countP (fun p => p == c) = 1 ∧
      (planPipeline fs root stagingRoot ms).1.countP (fun e => e.src == c) = 1 := by
  have hmem : c ∈ externalPaths fs root ms :=
    mem_externalPaths.mpr ⟨mem_allCandidates hm1 hr1 hc1, hout⟩
  have hnd : (externalPaths fs root ms).Nodup := dedupKeepFirst_nodup _
  have h1 := countP_eq_one_of_nodup_mem hnd hmem
  refine ⟨h1, ?_⟩
  simp only [planPipeline]
  rw [countP_src_mirrorPlan]
  exact h1

/-- C3 witness: the same external declared from two manifests under two
relative spellings. -/
theorem dedup_same_canonical_path_witness :
    resolveOverride ⟨fun p => some (p.filter (fun s => ¬ s == "."))⟩ ["w", "a"]
        (.entry ⟨"foo", .path [".", "ext"]⟩) = .candidate ["w", "a", "ext"] ∧
      (externalPaths ⟨fun p => some (p.filter (fun s => ¬ s == "."))⟩ ["w", "a", "proj"]
        [⟨["w", "a"], [.entry ⟨"foo", .path [".", "ext"]⟩]⟩,
          ⟨["w", "a"], [.entry ⟨"foo2", .path ["ext"]⟩]⟩]).countP
        (fun p => p == ["w", "a", "ext"]) = 1 :=
  ⟨by decide,
    (dedup_same_canonical_path ⟨fun p => some (p.filter (fun s => ¬ s == "."))⟩
      ["w", "a", "proj"] ["stage"] ["w", "a", "ext"]
      [⟨["w", "a"], [.entry ⟨"foo", .path [".", "ext"]⟩]⟩,
        ⟨["w", "a"], [.entry ⟨"foo2", .path ["ext"]⟩]⟩]
      ⟨["w", "a"], [.entry ⟨"foo", .path [".", "ext"]⟩]⟩
      ⟨["w", "a"], [.entry ⟨"foo2", .path ["ext"]⟩]⟩
      (.entry ⟨"foo", .path [".", "ext"]⟩) (.entry ⟨"foo2", .path ["ext"]⟩)
      (by decide) (by decide) (by decide) (by decide)
      (by decide) (by decide) (by decide)).1⟩

/-- C5: re-running planning on an unchanged manifest set yields identical
Mirror Plan Entries, and no two entries share a destination. -/
theorem plan_deterministic_and_collision_free (fs : FS) (root stagingRoot : FsPath)
    (ms : List Manifest) :
    planPipeline fs root stagingRoot ms = planPipeline fs root stagingRoot ms ∧
      ((planPipeline fs root stagingRoot ms).1.map PlanEntry.dest).Nodup := by
  refine ⟨rfl, ?_⟩
  simp only [planPipeline, mirrorPlan, List.map_map]
  have hfun : (PlanEntry.dest ∘ fun s => (⟨s, destFor stagingRoot s⟩ : PlanEntry)) =
      fun s => stagingRoot ++ s := rfl
  rw [hfun]
  exact (dedupKeepFirst_nodup _).map fun a b h => List.append_cancel_left h

/-- C6 witness. -/
theorem inside_tree_never_mirrored_witness :
    insideTree ["home", "proj"] ["home", "proj", "vendor", "bar"] = true ∧
      (["home", "proj", "vendor", "bar"] ∉
        externalPaths ⟨fun p => some p⟩ ["home", "proj"]
          [⟨["home", "proj"], [.entry ⟨"bar", .path ["vendor", "bar"]⟩]⟩] ∧
        ∀ e ∈ (planPipeline ⟨fun p => some p⟩ ["home", "proj"] ["stage"]
          [⟨["home", "proj"], [.entry ⟨"bar", .path ["vendor", "bar"]⟩]⟩]).1,
          e.src ≠ ["home", "proj", "vendor", "bar"]) :=
  ⟨by decide,
    inside_tree_never_mirrored ⟨fun p => some p⟩ ["home", "proj"] ["stage"]
      ["home", "proj", "vendor", "bar"]
      [⟨["home", "proj"], [.entry ⟨"bar", .path ["vendor", "bar"]⟩]⟩]
      (by decide)⟩

end CargoRemote
